import Mathlib

/-!
Verification development for the PoE switch control subsystem
(`src/lib/poe/controller.ts` and the keep-alive coordinator in
`src/contexts/simple-monitoring-context.tsx`).

The TypeScript source is shallowly embedded: pure helpers become Lean
functions, the stateful controller becomes explicit state passing with an
environment that supplies network outcomes, and the cooperative (async)
login path becomes a labelled transition system.
-/

namespace PoECtl

/-! ## Protocol codec: `merge` and `md5` (controller.ts lines 20-50)

`md5` in the source is Node's `crypto.createHash('md5')` over the UTF-8
bytes of the input, hex encoded (lowercase).  It is embedded here as a
complete executable MD5 (RFC 1321): padding, little-endian 32-bit words,
64 rounds per 512-bit chunk.  All words are `Nat` reduced mod `2^32`.
-/

/-- UTF-8 encoding of one character (as byte values `< 256`). -/
def charBytes (c : Char) : List Nat :=
  let n := c.toNat
  if n < 128 then [n]
  else if n < 2048 then [192 + n / 64, 128 + n % 64]
  else if n < 65536 then [224 + n / 4096, 128 + (n / 64) % 64, 128 + n % 64]
  else [240 + n / 262144, 128 + (n / 4096) % 64, 128 + (n / 64) % 64, 128 + n % 64]

/-- UTF-8 bytes of a string (what Node's `hash.update(string)` consumes). -/
def strBytes (s : String) : List Nat :=
  s.data.flatMap charBytes

/-- Truncate to a 32-bit word. -/
def w32 (x : Nat) : Nat := x % 4294967296

/-- 32-bit left rotation (argument assumed `< 2^32`). -/
def rotl (x s : Nat) : Nat := w32 (x <<< s) ||| (x >>> (32 - s))

/-- MD5 round constants `K[0..63]` (RFC 1321). -/
def mdKTable : List Nat :=
  [0xd76aa478, 0xe8c7b756, 0x242070db, 0xc1bdceee,
   0xf57c0faf, 0x4787c62a, 0xa8304613, 0xfd469501,
   0x698098d8, 0x8b44f7af, 0xffff5bb1, 0x895cd7be,
   0x6b901122, 0xfd987193, 0xa679438e, 0x49b40821,
   0xf61e2562, 0xc040b340, 0x265e5a51, 0xe9b6c7aa,
   0xd62f105d, 0x02441453, 0xd8a1e681, 0xe7d3fbc8,
   0x21e1cde6, 0xc33707d6, 0xf4d50d87, 0x455a14ed,
   0xa9e3e905, 0xfcefa3f8, 0x676f02d9, 0x8d2a4c8a,
   0xfffa3942, 0x8771f681, 0x6d9d6122, 0xfde5380c,
   0xa4beea44, 0x4bdecfa9, 0xf6bb4b60, 0xbebfbc70,
   0x289b7ec6, 0xeaa127fa, 0xd4ef3085, 0x04881d05,
   0xd9d4d039, 0xe6db99e5, 0x1fa27cf8, 0xc4ac5665,
   0xf4292244, 0x432aff97, 0xab9423a7, 0xfc93a039,
   0x655b59c3, 0x8f0ccc92, 0xffeff47d, 0x85845dd1,
   0x6fa87e4f, 0xfe2ce6e0, 0xa3014314, 0x4e0811a1,
   0xf7537e82, 0xbd3af235, 0x2ad7d2bb, 0xeb86d391]

/-- MD5 per-round left-rotation amounts `s[0..63]`. -/
def mdSTable : List Nat :=
  [7, 12, 17, 22, 7, 12, 17, 22, 7, 12, 17, 22, 7, 12, 17, 22,
   5, 9, 14, 20, 5, 9, 14, 20, 5, 9, 14, 20, 5, 9, 14, 20,
   4, 11, 16, 23, 4, 11, 16, 23, 4, 11, 16, 23, 4, 11, 16, 23,
   6, 10, 15, 21, 6, 10, 15, 21, 6, 10, 15, 21, 6, 10, 15, 21]

def mdK (i : Nat) : Nat := mdKTable.getD i 0

def mdS (i : Nat) : Nat := mdSTable.getD i 0

/-- Little-endian bytes, fixed width `k`. -/
def leBytes : Nat → Nat → List Nat
  | 0, _ => []
  | k + 1, x => (x % 256) :: leBytes k (x / 256)

/-- MD5 padding: append `0x80`, zero bytes to 56 mod 64, then the 64-bit
little-endian bit length. -/
def padMsg (m : List Nat) : List Nat :=
  let z := (119 - m.length % 64) % 64
  m ++ [128] ++ List.replicate z 0 ++ leBytes 8 (8 * m.length)

/-- First four bytes of a list as a little-endian 32-bit word. -/
def leWord (l : List Nat) : Nat :=
  match l with
  | b0 :: b1 :: b2 :: b3 :: _ => b0 + 256 * b1 + 65536 * b2 + 16777216 * b3
  | _ => 0

/-- One MD5 operation (round `i`) on state `(a, b, c, d)` with message
words `M`. -/
def md5Step (M : Nat → Nat) (st : Nat × Nat × Nat × Nat) (i : Nat) :
    Nat × Nat × Nat × Nat :=
  let (a, b, c, d) := st
  let f :=
    if i < 16 then (b &&& c) ||| ((b ^^^ 4294967295) &&& d)
    else if i < 32 then (d &&& b) ||| ((d ^^^ 4294967295) &&& c)
    else if i < 48 then b ^^^ c ^^^ d
    else c ^^^ (b ||| (d ^^^ 4294967295))
  let g :=
    if i < 16 then i
    else if i < 32 then (5 * i + 1) % 16
    else if i < 48 then (3 * i + 5) % 16
    else (7 * i) % 16
  let f2 := w32 (f + a + mdK i + M g)
  (d, w32 (b + rotl f2 (mdS i)), b, c)

/-- Process one 64-byte chunk. -/
def processChunk (st : Nat × Nat × Nat × Nat) (chunk : List Nat) :
    Nat × Nat × Nat × Nat :=
  let M := fun g => leWord (chunk.drop (4 * g))
  let (a0, b0, c0, d0) := st
  let (a, b, c, d) := (List.range 64).foldl (md5Step M) st
  (w32 (a0 + a), w32 (b0 + b), w32 (c0 + c), w32 (d0 + d))

/-- Split into 64-byte chunks (fuel-indexed; fuel = list length suffices). -/
def toChunks : Nat → List Nat → List (List Nat)
  | 0, _ => []
  | _ + 1, [] => []
  | n + 1, l => l.take 64 :: toChunks n (l.drop 64)

/-- MD5 digest bytes of a byte message. -/
def md5Bytes (msg : List Nat) : List Nat :=
  let padded := padMsg msg
  let (a, b, c, d) :=
    (toChunks padded.length padded).foldl processChunk
      (0x67452301, 0xefcdab89, 0x98badcfe, 0x10325476)
  leBytes 4 a ++ leBytes 4 b ++ leBytes 4 c ++ leBytes 4 d

def hexDigit (n : Nat) : Char :=
  if n < 10 then Char.ofNat (48 + n) else Char.ofNat (87 + n)

def byteHex (b : Nat) : List Char := [hexDigit (b / 16), hexDigit (b % 16)]

/-- `md5(data)` from controller.ts lines 23-25: hex-encoded MD5 digest. -/
def md5 (s : String) : String :=
  String.mk ((md5Bytes (strBytes s)).flatMap byteHex)

/-- The index loop of `merge` (controller.ts lines 31-50): each iteration
appends the next unconsumed character of `str1` (if any) and then of
`str2` (if any); once `str1` is exhausted the loop copies the rest of
`str2` one character per iteration, i.e. appends it unchanged. -/
def mergeGo : List Char → List Char → List Char
  | [], ys => ys
  | x :: xs, [] => x :: mergeGo xs []
  | x :: xs, y :: ys => x :: y :: mergeGo xs ys

/-- `merge(str1, str2)` from controller.ts lines 31-50. -/
def merge (str1 str2 : String) : String :=
  String.mk (mergeGo str1.data str2.data)

/-- The login POST body built by `performLogin` (controller.ts lines
230-234): `password=` followed by `md5(merge(password, rand))`. -/
def loginPostData (password rand : String) : String :=
  "password=" ++ md5 (merge password rand)

/-- Modelled from the spec's wording for claim C1 (refinement reference,
compared below with the source `merge`): interleave one character at a
time starting with the first string, appending any remainder in order. -/
def interleaveSpec : List Char → List Char → List Char
  | x :: xs, y :: ys => x :: y :: interleaveSpec xs ys
  | [], ys => ys
  | xs, [] => xs

theorem mergeGo_nil_right (xs : List Char) : mergeGo xs [] = xs := by
  induction xs with
  | nil => simp [mergeGo]
  | cons x xs ih => simpa [mergeGo] using ih

theorem mergeGo_eq_interleaveSpec (xs ys : List Char) :
    mergeGo xs ys = interleaveSpec xs ys := by
  induction xs generalizing ys with
  | nil => cases ys <;> simp [mergeGo, interleaveSpec]
  | cons x xs ih =>
    cases ys with
    | nil => simp [mergeGo, interleaveSpec, mergeGo_nil_right]
    | cons y ys => simp [mergeGo, interleaveSpec, ih]

set_option maxRecDepth 1000000 in
/-- Claim C1: for every password and nonce, the login payload is the
hex-encoded MD5 digest of the character-interleaving of password and
nonce (starting with the password, remainder appended in order);
`merge("ab","12") = "a1b2"`, `merge("abc","1") = "a1bc"`; and the digest
of the merged string, not of the raw concatenation, is what is sent. -/
theorem C1_login_payload_md5_of_interleave :
    (∀ password rand : String,
      loginPostData password rand =
        "password=" ++ md5 (String.mk (interleaveSpec password.data rand.data)))
    ∧ merge "ab" "12" = "a1b2"
    ∧ merge "abc" "1" = "a1bc"
    ∧ loginPostData "ab" "12" ≠ "password=" ++ md5 ("ab" ++ "12") := by
  refine ⟨?_, by decide, by decide, by decide⟩
  intro password rand
  unfold loginPostData merge
  rw [mergeGo_eq_interleaveSpec]

/-! ## Switch session client (controller.ts lines 92-580)

The controller's network operations are embedded as explicit state
passing.  A `SwitchEnv` supplies the outcome of each network exchange
(`login` for the k-th `performLogin`, `hash` for the j-th
`getHashToken`, `post` for the m-th toggle POST); error strings stand
for both network-level failures and the `Error` messages the source
constructs from non-200 statuses.  Every operation returns its result,
the updated state and the list of network actions it performed, in
order. -/

structure PoEPortConfig where
  portNumber : Nat
  enabled : Bool
deriving DecidableEq

/-- One network exchange performed by the client. -/
inductive NetAct where
  | performLogin (k : Nat)
  | hashFetch (j : Nat)
  | togglePost (port : Nat) (enabled : Bool)
  | logout
  | wait (ms : Nat)
deriving DecidableEq

/-- Outcomes the switch returns for successive exchanges. -/
structure SwitchEnv where
  login : Nat → Except String String
  hash : Nat → Except String String
  post : Nat → Except String Unit

/-- Mutable per-controller state plus exchange counters. -/
structure RunSt where
  cachedSid : Option String
  logins : Nat
  hashes : Nat
  posts : Nat
deriving DecidableEq

/-- `login()` (controller.ts lines 196-215) for one serialized caller:
cached session short-circuits; otherwise `performLogin` runs and, on
success, the token is cached.  The concurrent single-flight behaviour is
modelled separately (claim C2). -/
def loginRun (env : SwitchEnv) (st : RunSt) :
    Except String String × RunSt × List NetAct :=
  match st.cachedSid with
  | some sid => (.ok sid, st, [])
  | none =>
    match env.login st.logins with
    | .ok sid =>
      (.ok sid, { st with cachedSid := some sid, logins := st.logins + 1 },
       [.performLogin st.logins])
    | .error e =>
      (.error e, { st with logins := st.logins + 1 }, [.performLogin st.logins])

/-- `getHashToken` (controller.ts lines 281-303). -/
def hashRun (env : SwitchEnv) (st : RunSt) :
    Except String String × RunSt × List NetAct :=
  match env.hash st.hashes with
  | .ok h => (.ok h, { st with hashes := st.hashes + 1 }, [.hashFetch st.hashes])
  | .error e => (.error e, { st with hashes := st.hashes + 1 }, [.hashFetch st.hashes])

/-- The toggle POST at the end of `doTogglePort` (controller.ts lines
344-375). -/
def postRun (env : SwitchEnv) (port : Nat) (enabled : Bool) (st : RunSt) :
    Except String Unit × RunSt × List NetAct :=
  match env.post st.posts with
  | .ok _ => (.ok (), { st with posts := st.posts + 1 }, [.togglePost port enabled])
  | .error e => (.error e, { st with posts := st.posts + 1 }, [.togglePost port enabled])

/-- `doTogglePort` (controller.ts lines 334-376): login (cache-aware),
fresh hash token, then the toggle POST. -/
def doTogglePortRun (env : SwitchEnv) (port : Nat) (enabled : Bool) (st : RunSt) :
    Except String Unit × RunSt × List NetAct :=
  match loginRun env st with
  | (.error e, st1, t1) => (.error e, st1, t1)
  | (.ok _, st1, t1) =>
    match hashRun env st1 with
    | (.error e, st2, t2) => (.error e, st2, t1 ++ t2)
    | (.ok _, st2, t2) =>
      match postRun env port enabled st2 with
      | (r, st3, t3) => (r, st3, t1 ++ t2 ++ t3)

def invalidPortMsg (p : Nat) : String :=
  "Invalid port number: " ++ toString p ++ ". Must be 1-8."

/-- `togglePort` (controller.ts lines 308-332): validate the port, then
try `doTogglePort`; on failure log out the cached session (if any),
clear it, wait 1000ms, and run `doTogglePort` once more, propagating its
outcome. -/
def togglePortRun (env : SwitchEnv) (port : Nat) (enabled : Bool) (st : RunSt) :
    Except String Unit × RunSt × List NetAct :=
  if port < 1 ∨ 8 < port then (.error (invalidPortMsg port), st, [])
  else
    match doTogglePortRun env port enabled st with
    | (.ok _, st1, t1) => (.ok (), st1, t1)
    | (.error _, st1, t1) =>
      let logoutActs : List NetAct := if st1.cachedSid.isSome then [.logout] else []
      let st2 := { st1 with cachedSid := none }
      match doTogglePortRun env port enabled st2 with
      | (r, st3, t3) => (r, st3, t1 ++ logoutActs ++ NetAct.wait 1000 :: t3)

/-- The `for (const port of ports)` loop of `togglePorts` (controller.ts
lines 388-426): out-of-range ports are skipped via `continue`; each kept
command fetches a fresh hash token, then POSTs; the first failure
returns immediately. -/
def batchGo (env : SwitchEnv) : List PoEPortConfig → RunSt →
    Except String Unit × RunSt × List NetAct
  | [], st => (.ok (), st, [])
  | p :: rest, st =>
    if p.portNumber < 1 ∨ 8 < p.portNumber then batchGo env rest st
    else
      match hashRun env st with
      | (.error e, st1, t1) => (.error e, st1, t1)
      | (.ok _, st1, t1) =>
        match postRun env p.portNumber p.enabled st1 with
        | (.error e, st2, t2) => (.error e, st2, t1 ++ t2)
        | (.ok _, st2, t2) =>
          match batchGo env rest st2 with
          | (r, st3, t3) => (r, st3, t1 ++ t2 ++ t3)

/-- `togglePorts` (controller.ts lines 381-428): empty list returns at
once; otherwise login once, then the sequential loop. -/
def togglePortsRun (env : SwitchEnv) (ports : List PoEPortConfig) (st : RunSt) :
    Except String Unit × RunSt × List NetAct :=
  if ports.isEmpty then (.ok (), st, [])
  else
    match loginRun env st with
    | (.error e, st1, t1) => (.error e, st1, t1)
    | (.ok _, st1, t1) =>
      match batchGo env ports st1 with
      | (r, st2, t2) => (r, st2, t1 ++ t2)

structure ToggleResult where
  port : Nat
  success : Bool
  error : Option String
deriving DecidableEq

def parInvalidMsg (p : Nat) : String := "Invalid port: " ++ toString p

/-- The per-port async task inside `togglePortsParallel` (controller.ts
lines 443-485): validate, fetch the entry's own hash token, POST.  In
parallel mode each entry's exchanges are independent, so `env.hash` and
`env.post` are indexed by the entry position `i`.  Returns the entry's
failure message (if any) and the entry's own network actions. -/
def parEntryRun (env : SwitchEnv) (i : Nat) (p : PoEPortConfig) :
    Option String × List NetAct :=
  if p.portNumber < 1 ∨ 8 < p.portNumber then (some (parInvalidMsg p.portNumber), [])
  else
    match env.hash i with
    | .error e => (some e, [.hashFetch i])
    | .ok _ =>
      match env.post i with
      | .error e => (some e, [.hashFetch i, .togglePost p.portNumber p.enabled])
      | .ok _ => (none, [.hashFetch i, .togglePost p.portNumber p.enabled])

/-- The `results.map` at the end of `togglePortsParallel` (controller.ts
lines 488-492): one `ToggleResult` per settled entry. -/
def parResult (env : SwitchEnv) (i : Nat) (p : PoEPortConfig) : ToggleResult :=
  { port := p.portNumber, success := (parEntryRun env i p).1.isNone,
    error := (parEntryRun env i p).1 }

/-- `togglePortsParallel` (controller.ts lines 435-493): empty list
returns `[]`; login once (shared session); then all entries settle
independently (`Promise.allSettled`), and one result per requested port
is returned.  The recorded trace linearizes the concurrent per-entry
actions in entry order. -/
def togglePortsParallelRun (env : SwitchEnv) (ports : List PoEPortConfig)
    (st : RunSt) : Except String (List ToggleResult) × RunSt × List NetAct :=
  if ports.isEmpty then (.ok [], st, [])
  else
    match loginRun env st with
    | (.error e, st1, t1) => (.error e, st1, t1)
    | (.ok _, st1, t1) =>
      (.ok (ports.enum.map fun ip => parResult env ip.1 ip.2), st1,
       t1 ++ ports.enum.flatMap fun ip => (parEntryRun env ip.1 ip.2).2)

structure PoESwitchCredentials where
  ipAddress : String
  password : String
deriving DecidableEq

/-- Controller fields relevant to `updateCredentials` (controller.ts
lines 93-96). -/
structure CtrlState where
  ipAddress : String
  password : String
  cachedSid : Option String
  loginInProgress : Bool
deriving DecidableEq

/-- `updateCredentials` (controller.ts lines 146-157): if password or IP
differ, fire a best-effort background logout of any cached session,
adopt the new credentials and clear session state; otherwise do
nothing. -/
def updateCredentials (credentials : PoESwitchCredentials) (s : CtrlState) :
    CtrlState × List NetAct :=
  if s.password ≠ credentials.password ∨ s.ipAddress ≠ credentials.ipAddress then
    ({ ipAddress := credentials.ipAddress, password := credentials.password,
       cachedSid := none, loginInProgress := false },
     if s.cachedSid.isSome then [.logout] else [])
  else (s, [])

/-! ## Lemmas and claim theorems for the session client -/

/-- Claim C10: `updateCredentials` with credentials equal to the current
ipAddress and password is a no-op: stored credentials, cached session
token and in-flight-login state are unchanged and no logout request is
issued. -/
theorem C10_updateCredentials_same_is_noop (s : CtrlState)
    (credentials : PoESwitchCredentials)
    (hip : credentials.ipAddress = s.ipAddress)
    (hpw : credentials.password = s.password) :
    updateCredentials credentials s = (s, []) := by
  simp [updateCredentials, hip, hpw]

theorem C10_updateCredentials_same_is_noop_witness :
    updateCredentials ⟨"192.168.0.239", "password"⟩
        ⟨"192.168.0.239", "password", some "SID=abc", false⟩ =
      (⟨"192.168.0.239", "password", some "SID=abc", false⟩, []) :=
  C10_updateCredentials_same_is_noop _ _ rfl rfl

/-- Keeps exactly the in-range ports, the ones the batch loop does not
skip. -/
def validPort (p : PoEPortConfig) : Bool :=
  decide (1 ≤ p.portNumber ∧ p.portNumber ≤ 8)

theorem batchGo_filter_valid (env : SwitchEnv) (ports : List PoEPortConfig) :
    ∀ st : RunSt, batchGo env ports st = batchGo env (ports.filter validPort) st := by
  induction ports with
  | nil => intro st; rfl
  | cons p rest ih =>
    intro st
    by_cases h : p.portNumber < 1 ∨ 8 < p.portNumber
    · have hv : validPort p = false := by
        simp only [validPort, decide_eq_false_iff_not]
        omega
      rw [List.filter_cons, hv]
      simp only [batchGo]
      rw [if_pos h]
      exact ih st
    · have hv : validPort p = true := by
        simp only [validPort, decide_eq_true_eq]
        omega
      rw [List.filter_cons, hv]
      simp only [batchGo, if_neg h, hashRun, postRun]
      cases hh : env.hash st.hashes with
      | error e => simp
      | ok hx =>
        cases hb : env.post st.posts with
        | error e => simp [hb]
        | ok u => simp [hb, ih]

theorem batchGo_all_invalid (env : SwitchEnv) (ports : List PoEPortConfig)
    (st : RunSt) (h : ∀ p ∈ ports, p.portNumber < 1 ∨ 8 < p.portNumber) :
    batchGo env ports st = (.ok (), st, []) := by
  induction ports generalizing st with
  | nil => rfl
  | cons p rest ih =>
    have hp := h p (by simp)
    have hrest : ∀ q ∈ rest, q.portNumber < 1 ∨ 8 < q.portNumber := by
      intro q hq
      exact h q (by simp [hq])
    simp only [batchGo]
    rw [if_pos hp]
    exact ih st hrest

/-- Claim C4 (amended): for every port outside [1,8], `togglePort`
rejects with an invalid-port error performing no network exchange at
all; the batch loop of `togglePorts` silently skips such entries
(behaving as the filtered list; an all-invalid batch with a cached
session performs no exchange and reports success, not an error); and
`togglePortsParallel` settles such an entry as failed with an
invalid-port message, performing no hash-fetch or toggle-POST for it. -/
theorem C4_invalid_port_handling :
    (∀ (env : SwitchEnv) (st : RunSt) (port : Nat) (enabled : Bool),
        port < 1 ∨ 8 < port →
        togglePortRun env port enabled st = (.error (invalidPortMsg port), st, []))
    ∧ (∀ (env : SwitchEnv) (ports : List PoEPortConfig) (st : RunSt),
        batchGo env ports st = batchGo env (ports.filter validPort) st)
    ∧ (∀ (env : SwitchEnv) (sid : String) (st : RunSt) (ports : List PoEPortConfig),
        st.cachedSid = some sid →
        (∀ p ∈ ports, p.portNumber < 1 ∨ 8 < p.portNumber) →
        togglePortsRun env ports st = (.ok (), st, []))
    ∧ (∀ (env : SwitchEnv) (i : Nat) (p : PoEPortConfig),
        p.portNumber < 1 ∨ 8 < p.portNumber →
        parEntryRun env i p = (some (parInvalidMsg p.portNumber), []) ∧
        parResult env i p =
          { port := p.portNumber, success := false,
            error := some (parInvalidMsg p.portNumber) }) := by
  refine ⟨?_, ?_, ?_, ?_⟩
  · intro env st port enabled h
    unfold togglePortRun
    rw [if_pos h]
  · intro env ports st
    exact batchGo_filter_valid env ports st
  · intro env sid st ports hcache hinv
    by_cases hp : ports.isEmpty
    · unfold togglePortsRun
      rw [if_pos hp]
    · simp [togglePortsRun, hp, loginRun, hcache,
        batchGo_all_invalid env ports st hinv]
  · intro env i p h
    have he : parEntryRun env i p = (some (parInvalidMsg p.portNumber), []) := by
      unfold parEntryRun
      rw [if_pos h]
    refine ⟨he, ?_⟩
    unfold parResult
    rw [he]
    rfl

/-- Network environment in which every exchange succeeds. -/
def envAllOk : SwitchEnv :=
  ⟨fun _ => .ok "SID=1", fun _ => .ok "h", fun _ => .ok ()⟩

/-- Claim C4 counterexample: a batch containing only the out-of-range
port 9 completes with `ok` — the entry is skipped silently by
`togglePorts`, not rejected with an invalid-port error (only the
batch-level login occurs). -/
theorem C4_counterexample_batch_skips_silently :
    togglePortsRun envAllOk [⟨9, true⟩] ⟨none, 0, 0, 0⟩ =
      (.ok (), ⟨some "SID=1", 1, 0, 0⟩, [.performLogin 0])
    ∧ (togglePortsRun envAllOk [⟨9, true⟩] ⟨none, 0, 0, 0⟩).1 ≠
        .error (invalidPortMsg 9) := by
  refine ⟨rfl, ?_⟩
  intro h
  rw [show (togglePortsRun envAllOk [⟨9, true⟩] ⟨none, 0, 0, 0⟩).1 =
      .ok () from rfl] at h
  simp at h

theorem C4_invalid_port_handling_witness :
    togglePortRun envAllOk 0 true ⟨none, 0, 0, 0⟩ =
      (.error (invalidPortMsg 0), ⟨none, 0, 0, 0⟩, [])
    ∧ togglePortsRun envAllOk [⟨9, true⟩, ⟨0, false⟩] ⟨some "SID=9", 3, 4, 5⟩ =
        (.ok (), ⟨some "SID=9", 3, 4, 5⟩, [])
    ∧ parEntryRun envAllOk 2 ⟨12, true⟩ = (some (parInvalidMsg 12), []) := by
  refine ⟨?_, ?_, ?_⟩
  · exact C4_invalid_port_handling.1 envAllOk ⟨none, 0, 0, 0⟩ 0 true (by decide)
  · exact C4_invalid_port_handling.2.2.1 envAllOk "SID=9" ⟨some "SID=9", 3, 4, 5⟩
      [⟨9, true⟩, ⟨0, false⟩] rfl (by decide)
  · exact (C4_invalid_port_handling.2.2.2 envAllOk 2 ⟨12, true⟩ (by decide)).1

theorem loginRun_trace_shape (env : SwitchEnv) (st : RunSt) (a : NetAct)
    (ha : a ∈ (loginRun env st).2.2) : ∃ k, a = NetAct.performLogin k := by
  unfold loginRun at ha
  cases hc : st.cachedSid with
  | some sid =>
    rw [hc] at ha
    simp at ha
  | none =>
    rw [hc] at ha
    cases hl : env.login st.logins with
    | ok sid =>
      rw [hl] at ha
      simp at ha
      exact ⟨st.logins, ha⟩
    | error e =>
      rw [hl] at ha
      simp at ha
      exact ⟨st.logins, ha⟩

theorem batchGo_trace_shape (env : SwitchEnv) (ports : List PoEPortConfig) :
    ∀ (st : RunSt) (a : NetAct), a ∈ (batchGo env ports st).2.2 →
      (∃ j, a = NetAct.hashFetch j) ∨ ∃ q en, a = NetAct.togglePost q en := by
  induction ports with
  | nil =>
    intro st a ha
    simp [batchGo] at ha
  | cons p rest ih =>
    intro st a ha
    by_cases h : p.portNumber < 1 ∨ 8 < p.portNumber
    · rw [show batchGo env (p :: rest) st = batchGo env rest st from by
        simp only [batchGo]; rw [if_pos h]] at ha
      exact ih st a ha
    · simp only [batchGo, if_neg h, hashRun, postRun] at ha
      cases hh : env.hash st.hashes with
      | error e =>
        rw [hh] at ha
        simp at ha
        exact Or.inl ⟨st.hashes, ha⟩
      | ok hx =>
        rw [hh] at ha
        simp only [] at ha
        simp at ha
        cases hb : env.post st.posts with
        | error e =>
          rw [hb] at ha
          simp at ha
          rcases ha with ha | ha
          · exact Or.inl ⟨st.hashes, ha⟩
          · exact Or.inr ⟨p.portNumber, p.enabled, ha⟩
        | ok u =>
          rw [hb] at ha
          simp at ha
          rcases ha with ha | ha | ha
          · exact Or.inl ⟨st.hashes, ha⟩
          · exact Or.inr ⟨p.portNumber, p.enabled, ha⟩
          · exact ih _ a ha

theorem togglePortsRun_trace_shape (env : SwitchEnv) (ports : List PoEPortConfig)
    (st : RunSt) (a : NetAct) (ha : a ∈ (togglePortsRun env ports st).2.2) :
    (∃ k, a = NetAct.performLogin k) ∨ (∃ j, a = NetAct.hashFetch j) ∨
      ∃ q en, a = NetAct.togglePost q en := by
  unfold togglePortsRun at ha
  by_cases hp : ports.isEmpty
  · rw [if_pos hp] at ha
    simp at ha
  · rw [if_neg hp] at ha
    rcases hl : loginRun env st with ⟨r1, st1, t1⟩
    rw [hl] at ha
    cases r1 with
    | error e =>
      exact Or.inl (loginRun_trace_shape env st a (by rw [hl]; exact ha))
    | ok sid =>
      simp at ha
      rcases hb : batchGo env ports st1 with ⟨r2, st2, t2⟩
      rw [hb] at ha
      simp at ha
      rcases ha with ha | ha
      · exact Or.inl (loginRun_trace_shape env st a (by rw [hl]; exact ha))
      · rcases batchGo_trace_shape env ports st1 a (by rw [hb]; exact ha) with h1 | h2
        · exact Or.inr (Or.inl h1)
        · exact Or.inr (Or.inr h2)

/-- Claim C3 (amended): for a valid port, when the first `doTogglePort`
attempt of `togglePort` fails for any reason, the operation logs out the
cached session if one is present, clears it, waits a fixed 1000ms and
retries the whole sequence exactly once — the final outcome is exactly
the second attempt's outcome (so a retry failure propagates, with no
third attempt); the retry starts from an empty session cache, so it
performs a fresh full login-hash-POST sequence.  `togglePortsBatch`
(`togglePorts`) does NOT follow this policy: its traces never contain a
backoff wait or a logout — the first failure propagates immediately. -/
theorem C3_togglePort_retries_once_batch_does_not :
    (∀ (env : SwitchEnv) (st : RunSt) (port : Nat) (enabled : Bool)
        (e1 : String) (st1 : RunSt) (t1 : List NetAct),
        ¬(port < 1 ∨ 8 < port) →
        doTogglePortRun env port enabled st = (.error e1, st1, t1) →
        togglePortRun env port enabled st =
          ((doTogglePortRun env port enabled { st1 with cachedSid := none }).1,
           (doTogglePortRun env port enabled { st1 with cachedSid := none }).2.1,
           t1 ++ (if st1.cachedSid.isSome then [NetAct.logout] else []) ++
             NetAct.wait 1000 ::
               (doTogglePortRun env port enabled { st1 with cachedSid := none }).2.2))
    ∧ (∀ (env : SwitchEnv) (port : Nat) (enabled : Bool) (st : RunSt),
        st.cachedSid = none →
        ((doTogglePortRun env port enabled st).2.2).head? =
          some (NetAct.performLogin st.logins))
    ∧ (∀ (env : SwitchEnv) (ports : List PoEPortConfig) (st : RunSt) (a : NetAct),
        a ∈ (togglePortsRun env ports st).2.2 →
        (∀ ms, a ≠ NetAct.wait ms) ∧ a ≠ NetAct.logout) := by
  refine ⟨?_, ?_, ?_⟩
  · intro env st port enabled e1 st1 t1 h hfail
    unfold togglePortRun
    rw [if_neg h, hfail]
  · intro env port enabled st hc
    unfold doTogglePortRun loginRun
    rw [hc]
    cases hl : env.login st.logins with
    | error e => simp
    | ok sid =>
      cases hh : env.hash st.hashes with
      | error e => simp [hashRun, hh]
      | ok hx =>
        cases hb : env.post st.posts with
        | error e => simp [hashRun, postRun, hh, hb]
        | ok u => simp [hashRun, postRun, hh, hb]
  · intro env ports st a ha
    rcases togglePortsRun_trace_shape env ports st a ha with ⟨k, rfl⟩ | ⟨j, rfl⟩ | ⟨q, en, rfl⟩
    · exact ⟨fun ms => nofun, nofun⟩
    · exact ⟨fun ms => nofun, nofun⟩
    · exact ⟨fun ms => nofun, nofun⟩

/-- Network environment in which login and hash fetches succeed but
every toggle POST fails. -/
def envPostFail : SwitchEnv :=
  ⟨fun _ => .ok "SID=1", fun _ => .ok "h", fun _ => .error "Failed to toggle port: 500"⟩

/-- Claim C3 counterexample: a batch (`togglePorts`) whose single toggle
POST fails propagates that error after one attempt — the trace shows one
login, one hash fetch and one POST, and contains no 1000ms backoff wait
(hence no retry), contradicting the claim that `togglePortsBatch`
follows the retry-once policy. -/
theorem C3_counterexample_batch_does_not_retry :
    togglePortsRun envPostFail [⟨1, true⟩] ⟨none, 0, 0, 0⟩ =
      (.error "Failed to toggle port: 500", ⟨some "SID=1", 1, 1, 1⟩,
       [.performLogin 0, .hashFetch 0, .togglePost 1 true])
    ∧ NetAct.wait 1000 ∉ (togglePortsRun envPostFail [⟨1, true⟩] ⟨none, 0, 0, 0⟩).2.2 :=
  ⟨rfl, by decide⟩

theorem C3_togglePort_retries_once_batch_does_not_witness :
    togglePortRun envPostFail 3 true ⟨none, 0, 0, 0⟩ =
      (.error "Failed to toggle port: 500", ⟨some "SID=1", 2, 2, 2⟩,
       [.performLogin 0, .hashFetch 0, .togglePost 3 true, .logout, .wait 1000,
        .performLogin 1, .hashFetch 1, .togglePost 3 true])
    ∧ (doTogglePortRun envPostFail 3 true ⟨none, 0, 0, 0⟩).2.2.head? =
        some (NetAct.performLogin 0)
    ∧ ((∀ ms, NetAct.performLogin 0 ≠ NetAct.wait ms) ∧
        NetAct.performLogin 0 ≠ NetAct.logout) := by
  refine ⟨?_, ?_, ?_⟩
  · have h := C3_togglePort_retries_once_batch_does_not.1 envPostFail
      ⟨none, 0, 0, 0⟩ 3 true "Failed to toggle port: 500" ⟨some "SID=1", 1, 1, 1⟩
      [.performLogin 0, .hashFetch 0, .togglePost 3 true] (by decide) rfl
    exact h.trans (by rfl)
  · exact C3_togglePort_retries_once_batch_does_not.2.1 envPostFail 3 true
      ⟨none, 0, 0, 0⟩ rfl
  · exact C3_togglePort_retries_once_batch_does_not.2.2 envPostFail [⟨1, true⟩]
      ⟨none, 0, 0, 0⟩ (NetAct.performLogin 0) (by decide)

/-- Three valid single-port commands, as used in the spec's parallel
failure scenario. -/
def parPorts3 : List PoEPortConfig := [⟨1, true⟩, ⟨2, true⟩, ⟨3, true⟩]

/-- Environment in which only the second parallel entry's POST fails. -/
def envPar3 : SwitchEnv :=
  ⟨fun _ => .ok "SID=1", fun _ => .ok "h",
   fun i => if i = 1 then .error "Failed to toggle port 2: 500" else .ok ()⟩

/-- Environment in which the login exchange itself fails. -/
def envLoginFail : SwitchEnv :=
  ⟨fun _ => .error "Login failed: 401", fun _ => .ok "h", fun _ => .ok ()⟩


/-! ### Characterization lemmas (case-split forms of the run functions) -/

theorem loginRun_cached (env : SwitchEnv) (st : RunSt) (sid : String)
    (hc : st.cachedSid = some sid) : loginRun env st = (.ok sid, st, []) := by
  unfold loginRun
  rw [hc]

theorem togglePortsRun_empty (env : SwitchEnv) (ports : List PoEPortConfig)
    (st : RunSt) (hp : ports.isEmpty) :
    togglePortsRun env ports st = (.ok (), st, []) := by
  unfold togglePortsRun
  rw [if_pos hp]

theorem togglePortsRun_login_error (env : SwitchEnv) (ports : List PoEPortConfig)
    (st : RunSt) (e : String) (st1 : RunSt) (t1 : List NetAct)
    (hp : ¬ports.isEmpty = true) (hl : loginRun env st = (.error e, st1, t1)) :
    togglePortsRun env ports st = (.error e, st1, t1) := by
  unfold togglePortsRun
  rw [if_neg hp, hl]

theorem togglePortsRun_login_ok (env : SwitchEnv) (ports : List PoEPortConfig)
    (st : RunSt) (sid : String) (st1 : RunSt) (t1 : List NetAct)
    (hp : ¬ports.isEmpty = true) (hl : loginRun env st = (.ok sid, st1, t1)) :
    togglePortsRun env ports st =
      ((batchGo env ports st1).1, (batchGo env ports st1).2.1,
       t1 ++ (batchGo env ports st1).2.2) := by
  unfold togglePortsRun
  rw [if_neg hp, hl]

theorem togglePortsParallelRun_empty (env : SwitchEnv)
    (ports : List PoEPortConfig) (st : RunSt) (hp : ports.isEmpty) :
    togglePortsParallelRun env ports st = (.ok [], st, []) := by
  unfold togglePortsParallelRun
  rw [if_pos hp]

theorem togglePortsParallelRun_login_error (env : SwitchEnv)
    (ports : List PoEPortConfig) (st : RunSt) (e : String) (st1 : RunSt)
    (t1 : List NetAct) (hp : ¬ports.isEmpty = true)
    (hl : loginRun env st = (.error e, st1, t1)) :
    togglePortsParallelRun env ports st = (.error e, st1, t1) := by
  unfold togglePortsParallelRun
  rw [if_neg hp, hl]

theorem togglePortsParallelRun_login_ok (env : SwitchEnv)
    (ports : List PoEPortConfig) (st : RunSt) (sid : String) (st1 : RunSt)
    (t1 : List NetAct) (hp : ¬ports.isEmpty = true)
    (hl : loginRun env st = (.ok sid, st1, t1)) :
    togglePortsParallelRun env ports st =
      (.ok (ports.enum.map fun ip => parResult env ip.1 ip.2), st1,
       t1 ++ ports.enum.flatMap fun ip => (parEntryRun env ip.1 ip.2).2) := by
  unfold togglePortsParallelRun
  rw [if_neg hp, hl]

/-- Claim C5: `togglePortsParallel` returns exactly one result per
requested port, in the input's port order; an error result can only come
from the login step (with a shared cached session the call always
returns `ok`, each entry settled from its own exchanges); and in the
concrete three-port run with one failing port it returns three results
with exactly one `success := false` carrying a non-empty message. -/
theorem C5_parallel_one_result_per_port :
    (∀ (env : SwitchEnv) (st : RunSt) (ports : List PoEPortConfig)
        (rs : List ToggleResult) (st' : RunSt) (t : List NetAct),
        togglePortsParallelRun env ports st = (.ok rs, st', t) →
        rs.map (fun r => r.port) = ports.map (fun p => p.portNumber))
    ∧ (∀ (env : SwitchEnv) (ports : List PoEPortConfig) (st : RunSt) (e : String),
        (togglePortsParallelRun env ports st).1 = .error e →
        st.cachedSid = none ∧ env.login st.logins = .error e)
    ∧ (∀ (env : SwitchEnv) (sid : String) (st : RunSt) (ports : List PoEPortConfig),
        st.cachedSid = some sid →
        (togglePortsParallelRun env ports st).1 =
          .ok (ports.enum.map fun ip => parResult env ip.1 ip.2))
    ∧ (togglePortsParallelRun envPar3 parPorts3 ⟨some "SID=1", 0, 0, 0⟩).1 =
        .ok [⟨1, true, none⟩, ⟨2, false, some "Failed to toggle port 2: 500"⟩,
             ⟨3, true, none⟩]
    ∧ List.countP (fun r => !r.success)
        [(⟨1, true, none⟩ : ToggleResult),
         ⟨2, false, some "Failed to toggle port 2: 500"⟩, ⟨3, true, none⟩] = 1
    ∧ "Failed to toggle port 2: 500" ≠ "" := by
  refine ⟨?_, ?_, ?_, by rfl, by decide, by decide⟩
  · intro env st ports rs st' t heq
    by_cases hp : ports.isEmpty
    · have hports := List.isEmpty_iff.mp hp
      subst hports
      have h0 := (togglePortsParallelRun_empty env [] st hp).symm.trans heq
      simp at h0
      simp [← h0.1]
    · rcases hl : loginRun env st with ⟨r1, st1, t1⟩
      cases r1 with
      | error e =>
        have h0 := (togglePortsParallelRun_login_error env ports st e st1 t1
          hp hl).symm.trans heq
        simp at h0
      | ok sid =>
        have h0 := (togglePortsParallelRun_login_ok env ports st sid st1 t1
          hp hl).symm.trans heq
        simp at h0
        rw [← h0.1, List.map_map]
        rw [show ((fun r => r.port) ∘ fun ip : Nat × PoEPortConfig =>
          parResult env ip.1 ip.2) = fun ip : Nat × PoEPortConfig =>
            ip.2.portNumber from rfl]
        rw [show (fun ip : Nat × PoEPortConfig => ip.2.portNumber) =
          (fun p : PoEPortConfig => p.portNumber) ∘ Prod.snd from rfl]
        rw [← List.map_map, List.enum_map_snd]
  · intro env ports st e heq
    by_cases hp : ports.isEmpty
    · rw [togglePortsParallelRun_empty env ports st hp] at heq
      simp at heq
    · rcases hl : loginRun env st with ⟨r1, st1, t1⟩
      cases r1 with
      | ok sid =>
        rw [togglePortsParallelRun_login_ok env ports st sid st1 t1 hp hl] at heq
        simp at heq
      | error e1 =>
        rw [togglePortsParallelRun_login_error env ports st e1 st1 t1 hp hl] at heq
        simp at heq
        subst heq
        unfold loginRun at hl
        cases hc : st.cachedSid with
        | some sid =>
          rw [hc] at hl
          simp at hl
        | none =>
          rw [hc] at hl
          cases hlo : env.login st.logins with
          | ok sid =>
            rw [hlo] at hl
            simp at hl
          | error e2 =>
            rw [hlo] at hl
            simp at hl
            exact ⟨rfl, by rw [hl.1]⟩
  · intro env sid st ports hcache
    by_cases hp : ports.isEmpty
    · have hports := List.isEmpty_iff.mp hp
      subst hports
      rfl
    · rw [togglePortsParallelRun_login_ok env ports st sid st []
        hp (loginRun_cached env st sid hcache)]

theorem C5_parallel_one_result_per_port_witness :
    ([(⟨1, true, none⟩ : ToggleResult),
      ⟨2, false, some "Failed to toggle port 2: 500"⟩, ⟨3, true, none⟩].map
        (fun r => r.port) = parPorts3.map fun p => p.portNumber)
    ∧ ((⟨none, 0, 0, 0⟩ : RunSt).cachedSid = none ∧
        envLoginFail.login 0 = .error "Login failed: 401")
    ∧ (togglePortsParallelRun envPar3 parPorts3 ⟨some "SID=1", 0, 0, 0⟩).1 =
        .ok (parPorts3.enum.map fun ip => parResult envPar3 ip.1 ip.2) := by
  refine ⟨?_, ?_, ?_⟩
  · exact C5_parallel_one_result_per_port.1 envPar3 ⟨some "SID=1", 0, 0, 0⟩
      parPorts3
      [⟨1, true, none⟩, ⟨2, false, some "Failed to toggle port 2: 500"⟩,
       ⟨3, true, none⟩]
      ⟨some "SID=1", 0, 0, 0⟩
      [.hashFetch 0, .togglePost 1 true, .hashFetch 1, .togglePost 2 true,
       .hashFetch 2, .togglePost 3 true] rfl
  · exact C5_parallel_one_result_per_port.2.1 envLoginFail parPorts3
      ⟨none, 0, 0, 0⟩ "Login failed: 401" rfl
  · exact C5_parallel_one_result_per_port.2.2.1 envPar3 "SID=1"
      ⟨some "SID=1", 0, 0, 0⟩ parPorts3 rfl

/-- Tests whether a network action is a login exchange. -/
def isLoginAct : NetAct → Bool
  | .performLogin _ => true
  | _ => false

theorem loginRun_count (env : SwitchEnv) (st : RunSt) :
    (loginRun env st).2.2.countP isLoginAct ≤ 1 := by
  unfold loginRun
  cases hc : st.cachedSid with
  | some sid => simp
  | none =>
    cases hl : env.login st.logins with
    | ok sid => simp [List.countP_cons, isLoginAct]
    | error e => simp [List.countP_cons, isLoginAct]

/-- Modelled from the spec's words (refinement reference for claim C8):
apply each command in list order, fetching a fresh hash token (next
token index) per command; the first failing command aborts the remaining
ones and its error propagates; already-completed commands stay in the
trace untouched (no rollback actions exist). -/
def batchSpecGo (env : SwitchEnv) : List PoEPortConfig → Nat →
    Except String Unit × List NetAct
  | [], _ => (.ok (), [])
  | p :: rest, j =>
    match env.hash j with
    | .error e => (.error e, [.hashFetch j])
    | .ok _ =>
      match env.post j with
      | .error e => (.error e, [.hashFetch j, .togglePost p.portNumber p.enabled])
      | .ok _ =>
        ((batchSpecGo env rest (j + 1)).1,
         .hashFetch j :: .togglePost p.portNumber p.enabled ::
           (batchSpecGo env rest (j + 1)).2)

/-- Claim C8: `togglePorts` logs in at most once per call (its trace has
at most one login exchange); a non-empty batch whose login succeeds is
exactly that login followed by the sequential loop; and on valid ports
the loop refines `batchSpecGo`: commands are applied strictly in list
order with a fresh hash token per command, the first failure aborts the
remaining commands and propagates, and completed commands are not
rolled back (their exchanges stay in the trace, with no compensating
actions). -/
theorem C8_batch_in_order_single_login :
    (∀ (env : SwitchEnv) (ports : List PoEPortConfig) (st : RunSt),
        (togglePortsRun env ports st).2.2.countP isLoginAct ≤ 1)
    ∧ (∀ (env : SwitchEnv) (ports : List PoEPortConfig) (st : RunSt) (sid : String),
        ¬ports.isEmpty → (loginRun env st).1 = .ok sid →
        (togglePortsRun env ports st).1 =
          (batchGo env ports (loginRun env st).2.1).1 ∧
        (togglePortsRun env ports st).2.2 =
          (loginRun env st).2.2 ++ (batchGo env ports (loginRun env st).2.1).2.2)
    ∧ (∀ (env : SwitchEnv) (ports : List PoEPortConfig) (st : RunSt),
        (∀ p ∈ ports, ¬(p.portNumber < 1 ∨ 8 < p.portNumber)) →
        st.hashes = st.posts →
        (batchGo env ports st).1 = (batchSpecGo env ports st.hashes).1 ∧
        (batchGo env ports st).2.2 = (batchSpecGo env ports st.hashes).2) := by
  refine ⟨?_, ?_, ?_⟩
  · intro env ports st
    by_cases hp : ports.isEmpty
    · rw [togglePortsRun_empty env ports st hp]
      simp
    · rcases hl : loginRun env st with ⟨r1, st1, t1⟩
      have h1 : t1.countP isLoginAct ≤ 1 := by
        have := loginRun_count env st
        rw [hl] at this
        exact this
      cases r1 with
      | error e =>
        rw [togglePortsRun_login_error env ports st e st1 t1 hp hl]
        exact h1
      | ok sid =>
        rw [togglePortsRun_login_ok env ports st sid st1 t1 hp hl]
        have h2 : ((batchGo env ports st1).2.2).countP isLoginAct = 0 := by
          refine List.countP_eq_zero.mpr ?_
          intro a ha
          rcases batchGo_trace_shape env ports st1 a ha with ⟨j, rfl⟩ | ⟨q, en, rfl⟩ <;>
            simp [isLoginAct]
        show ((t1 ++ (batchGo env ports st1).2.2).countP isLoginAct) ≤ 1
        rw [List.countP_append, h2]
        omega
  · intro env ports st sid hne hlok
    rcases hl : loginRun env st with ⟨r1, st1, t1⟩
    cases r1 with
    | error e =>
      rw [hl] at hlok
      simp at hlok
    | ok sid1 =>
      rw [togglePortsRun_login_ok env ports st sid1 st1 t1 hne hl]
      simp [hl]
  · intro env ports st hvalid heq
    induction ports generalizing st with
    | nil => exact ⟨rfl, rfl⟩
    | cons p rest ih =>
      have hp := hvalid p (by simp)
      have hrest : ∀ q ∈ rest, ¬(q.portNumber < 1 ∨ 8 < q.portNumber) := by
        intro q hq
        exact hvalid q (by simp [hq])
      simp only [batchGo, if_neg hp, hashRun, postRun, batchSpecGo]
      cases hh : env.hash st.hashes with
      | error e => simp
      | ok hx =>
        rw [← heq]
        cases hb : env.post st.hashes with
        | error e => simp [hb]
        | ok u =>
          have := ih { st with hashes := st.hashes + 1, posts := st.hashes + 1 }
            hrest rfl
          simp [hb, this.1, this.2]

theorem C8_batch_in_order_single_login_witness :
    (togglePortsRun envPostFail [⟨2, false⟩] ⟨none, 0, 0, 0⟩).2.2.countP
        isLoginAct ≤ 1
    ∧ ((togglePortsRun envPostFail [⟨2, false⟩] ⟨none, 0, 0, 0⟩).1 =
        (batchGo envPostFail [⟨2, false⟩]
          (loginRun envPostFail ⟨none, 0, 0, 0⟩).2.1).1 ∧
       (togglePortsRun envPostFail [⟨2, false⟩] ⟨none, 0, 0, 0⟩).2.2 =
        (loginRun envPostFail ⟨none, 0, 0, 0⟩).2.2 ++
          (batchGo envPostFail [⟨2, false⟩]
            (loginRun envPostFail ⟨none, 0, 0, 0⟩).2.1).2.2)
    ∧ ((batchGo envPar3 parPorts3 ⟨some "SID=1", 1, 0, 0⟩).1 =
        (batchSpecGo envPar3 parPorts3 0).1 ∧
       (batchGo envPar3 parPorts3 ⟨some "SID=1", 1, 0, 0⟩).2.2 =
        (batchSpecGo envPar3 parPorts3 0).2) := by
  refine ⟨?_, ?_, ?_⟩
  · exact C8_batch_in_order_single_login.1 envPostFail [⟨2, false⟩] ⟨none, 0, 0, 0⟩
  · exact C8_batch_in_order_single_login.2.1 envPostFail [⟨2, false⟩]
      ⟨none, 0, 0, 0⟩ "SID=1" (by decide) rfl
  · exact C8_batch_in_order_single_login.2.2 envPar3 parPorts3
      ⟨some "SID=1", 1, 0, 0⟩ (by decide) rfl

/-! ## Keep-alive coordinator (simple-monitoring-context.tsx lines 1241-1396)

`controlPoEDevices`, `sendPoEToggle`, `clearPoECountdown` and the
countdown interval are embedded as a pure step function on the relevant
React refs/state plus an event trace.  The countdown refs collapse into
`countdown : Option Nat` (remaining seconds); one interval firing is
`poeCountdownTick`.  The fetch response handling in `sendPoEToggle` only
produces warning logs and is not modelled; the network call itself is
the `netToggleBulk` event. -/

structure PoEDevice where
  id : String
  name : String
  mode : String
  linkedPagingDeviceIds : List String
deriving DecidableEq

/-- An inventory device record (only the fields the coordinator reads). -/
structure InvDevice where
  id : String
  type : String
deriving DecidableEq

structure MonState where
  emulationMode : Bool
  poeDevices : List PoEDevice
  poeAutoDisabled : List String
  selectedDevices : List String
  devices : List InvDevice
  poeIsOn : Bool
  countdown : Option Nat
  poeKeepAliveDuration : Nat
deriving DecidableEq

inductive PoEEv where
  | emulationLog
  | toggleLog (enable : Bool) (ids : List String)
  | netToggleBulk (cmds : List (String × Bool))
  | timerResetLog
  | forceOffLog (ids : List String)
  | countdownStartLog (remaining : Nat)
deriving DecidableEq

/-- `selectedDevices.filter(...)` (lines 1260-1263 and 1350-1353): the
currently selected devices whose inventory record has type 8301. -/
def activePagingIds (s : MonState) : List String :=
  s.selectedDevices.filter fun deviceId =>
    match s.devices.find? (fun d => d.id == deviceId) with
    | some d => d.type == "8301"
    | none => false

/-- `sendPoEToggle` (lines 1254-1297): auto-mode non-excluded devices,
restricted to those linked to an active paging device; empty sets
short-circuit with no events. -/
def sendPoEToggle (enable : Bool) (s : MonState) : List PoEEv :=
  let autoPoEDevices := s.poeDevices.filter fun d =>
    d.mode == "auto" && !(s.poeAutoDisabled.contains d.id)
  if autoPoEDevices.isEmpty then []
  else
    let eligible := autoPoEDevices.filter fun d =>
      !d.linkedPagingDeviceIds.isEmpty &&
        d.linkedPagingDeviceIds.any fun lid => (activePagingIds s).contains lid
    if eligible.isEmpty then []
    else
      [.toggleLog enable (eligible.map fun d => d.id),
       .netToggleBulk (eligible.map fun d => (d.id, enable))]

/-- The guard of `controlPoEDevices` (line 1330). -/
def hasEnabledDevices (s : MonState) : Bool :=
  s.poeDevices.any fun d => d.mode == "auto" && !(s.poeAutoDisabled.contains d.id)

/-- The force-off target set (lines 1349-1357): every auto-mode device
linked to an active paging device, ignoring `poeAutoDisabled`. -/
def forceEligible (s : MonState) : List PoEDevice :=
  (s.poeDevices.filter fun d => d.mode == "auto").filter fun d =>
    !d.linkedPagingDeviceIds.isEmpty &&
      d.linkedPagingDeviceIds.any fun lid => (activePagingIds s).contains lid

/-- `controlPoEDevices(enable, force)` (lines 1323-1393). -/
def controlPoEDevices (s : MonState) (enable : Bool) (force : Bool) :
    MonState × List PoEEv :=
  if s.emulationMode then (s, [.emulationLog])
  else if !hasEnabledDevices s && !force then (s, [])
  else
    let s1 := { s with countdown := none }
    if enable then
      if !s1.poeIsOn then ({ s1 with poeIsOn := true }, sendPoEToggle true s1)
      else (s1, [.timerResetLog])
    else if force then
      let s2 := { s1 with poeIsOn := false }
      let eligible := forceEligible s2
      if eligible.isEmpty then (s2, [])
      else
        (s2, [.forceOffLog (eligible.map fun d => d.id),
              .netToggleBulk (eligible.map fun d => (d.id, false))])
    else
      let remaining := (s1.poeKeepAliveDuration + 999) / 1000
      ({ s1 with countdown := some remaining }, [.countdownStartLog remaining])

/-- One firing of the countdown interval (lines 1377-1391): decrement;
at zero, clear the countdown and, if still ON, go OFF and toggle. -/
def poeCountdownTick (s : MonState) : MonState × List PoEEv :=
  match s.countdown with
  | none => (s, [])
  | some r =>
    let r2 := r - 1
    if r2 = 0 then
      let s1 := { s with countdown := none }
      if s1.poeIsOn then ({ s1 with poeIsOn := false }, sendPoEToggle false s1)
      else (s1, [])
    else ({ s with countdown := some r2 }, [])

def poeTicks : Nat → MonState → MonState × List PoEEv
  | 0, s => (s, [])
  | k + 1, s =>
    let (s1, e1) := poeCountdownTick s
    let (s2, e2) := poeTicks k s1
    (s2, e1 ++ e2)

/-- Does the trace contain a network toggle command turning a device
OFF? -/
def hasOffToggle (es : List PoEEv) : Bool :=
  es.any fun e =>
    match e with
    | .netToggleBulk cmds => cmds.any fun c => !c.2
    | _ => false

theorem sendPoEToggle_true_no_off (s : MonState) :
    hasOffToggle (sendPoEToggle true s) = false := by
  unfold sendPoEToggle
  dsimp only
  split
  · rfl
  · split
    · rfl
    · simp [hasOffToggle, List.any_map, Function.comp]

theorem enable_no_off (s : MonState) :
    hasOffToggle (controlPoEDevices s true false).2 = false := by
  by_cases hem : s.emulationMode
  · simp [controlPoEDevices, hem, hasOffToggle]
  · by_cases hen : hasEnabledDevices s
    · by_cases hon : s.poeIsOn
      · simp [controlPoEDevices, hem, hen, hon, hasOffToggle]
      · simp [controlPoEDevices, hem, hen, hon, sendPoEToggle_true_no_off]
    · simp [controlPoEDevices, hem, hen, hasOffToggle]

theorem disable_nonforce_no_off (s : MonState) :
    hasOffToggle (controlPoEDevices s false false).2 = false := by
  by_cases hem : s.emulationMode
  · simp [controlPoEDevices, hem, hasOffToggle]
  · by_cases hen : hasEnabledDevices s
    · simp [controlPoEDevices, hem, hen, hasOffToggle]
    · simp [controlPoEDevices, hem, hen, hasOffToggle]

theorem hasOffToggle_append (a b : List PoEEv) :
    hasOffToggle (a ++ b) = (hasOffToggle a || hasOffToggle b) := by
  simp [hasOffToggle]

theorem poeTicks_no_fire :
    ∀ (k : Nat) (s : MonState), k < s.countdown.getD (k + 1) →
      (poeTicks k s).2 = [] := by
  intro k
  induction k with
  | zero => intro s h; rfl
  | succ k ih =>
    intro s h
    cases hc : s.countdown with
    | none =>
      have h1 : poeCountdownTick s = (s, []) := by
        unfold poeCountdownTick
        rw [hc]
      have h2 : (poeTicks k s).2 = [] := ih s (by rw [hc]; simp)
      simp only [poeTicks]
      rw [h1]
      simpa using h2
    | some r =>
      rw [hc] at h
      simp at h
      have hr2 : ¬(r - 1 = 0) := by omega
      have h1 : poeCountdownTick s =
          ({ s with countdown := some (r - 1) }, []) := by
        unfold poeCountdownTick
        rw [hc]
        simp [hr2]
      have h2 : (poeTicks k { s with countdown := some (r - 1) }).2 = [] := by
        apply ih
        simp
        omega
      simp only [poeTicks]
      rw [h1]
      simpa using h2

/-- Claim C6: when some auto-mode non-excluded device exists (the
eligibility guard that `enable()` shares with every coordinator action),
enable cancels any pending disable countdown; if the state is already ON
it only logs a timer reset and issues zero network toggle events; and
the temporal consequence holds unconditionally: `disable(force=false)`
followed by up to `k` countdown ticks (strictly before the countdown
elapses) and then `enable()` never produces an OFF network toggle
command anywhere in the combined trace. -/
theorem C6_enable_cancels_countdown_and_coalesces :
    (∀ s : MonState, s.emulationMode = false → hasEnabledDevices s = true →
        ((controlPoEDevices s true false).1).countdown = none)
    ∧ (∀ s : MonState, s.emulationMode = false → hasEnabledDevices s = true →
        s.poeIsOn = true →
        controlPoEDevices s true false =
          ({ s with countdown := none }, [.timerResetLog]))
    ∧ (∀ (s : MonState) (k : Nat), s.emulationMode = false →
        k < ((controlPoEDevices s false false).1).countdown.getD (k + 1) →
        hasOffToggle ((controlPoEDevices s false false).2 ++
            (poeTicks k (controlPoEDevices s false false).1).2 ++
            (controlPoEDevices (poeTicks k (controlPoEDevices s false false).1).1
              true false).2) = false) := by
  refine ⟨?_, ?_, ?_⟩
  · intro s hem hen
    by_cases hon : s.poeIsOn <;> simp [controlPoEDevices, hem, hen, hon]
  · intro s hem hen hon
    simp [controlPoEDevices, hem, hen, hon]
  · intro s k hem hk
    have e1 := disable_nonforce_no_off s
    have e2 := poeTicks_no_fire k _ hk
    have e3 := enable_no_off (poeTicks k (controlPoEDevices s false false).1).1
    rw [hasOffToggle_append, hasOffToggle_append, e1, e3, e2]
    rfl

/-- Claim C7: `disable(force=true)` (outside emulation) cancels any
countdown, sets the coordinator state to OFF, and issues OFF commands to
exactly the devices whose mode is auto and which are linked to a
currently active paging device (`forceEligible`); the operator exclusion
set has no effect — replacing it by any other set leaves the emitted
events unchanged. -/
theorem C7_force_off_ignores_exclusions (s : MonState)
    (hem : s.emulationMode = false) :
    ((controlPoEDevices s false true).1).countdown = none
    ∧ ((controlPoEDevices s false true).1).poeIsOn = false
    ∧ (controlPoEDevices s false true).2 =
        (if (forceEligible s).isEmpty then []
         else [.forceOffLog ((forceEligible s).map fun d => d.id),
               .netToggleBulk ((forceEligible s).map fun d => (d.id, false))])
    ∧ (∀ excl : List String,
        (controlPoEDevices { s with poeAutoDisabled := excl } false true).2 =
          (controlPoEDevices s false true).2) := by
  have main : ∀ t : MonState, t.emulationMode = false →
      controlPoEDevices t false true =
        ({ t with countdown := none, poeIsOn := false },
         if (forceEligible t).isEmpty then []
         else [.forceOffLog ((forceEligible t).map fun d => d.id),
               .netToggleBulk ((forceEligible t).map fun d => (d.id, false))]) := by
    intro t htem
    have hfe : forceEligible
        { emulationMode := false, poeDevices := t.poeDevices,
          poeAutoDisabled := t.poeAutoDisabled,
          selectedDevices := t.selectedDevices, devices := t.devices,
          poeIsOn := false, countdown := none,
          poeKeepAliveDuration := t.poeKeepAliveDuration } = forceEligible t := rfl
    by_cases hen : hasEnabledDevices t
    · simp [controlPoEDevices, htem, hen, hfe]
      split <;> rfl
    · simp [controlPoEDevices, htem, hen, hfe]
      split <;> rfl
  obtain h := main s hem
  refine ⟨by rw [h], by rw [h], by rw [h], ?_⟩
  intro excl
  have hem2 : ({ s with poeAutoDisabled := excl } : MonState).emulationMode = false :=
    hem
  rw [main { s with poeAutoDisabled := excl } hem2, h]
  have hfe2 : forceEligible { s with poeAutoDisabled := excl } = forceEligible s :=
    rfl
  rw [hfe2]

/-- A concrete coordinator state: two auto devices linked to the active
paging device pg1, one of them operator-excluded, state ON, no pending
countdown, 60s keep-alive. -/
def sampleMon : MonState :=
  { emulationMode := false
    poeDevices := [⟨"poe1", "Siren", "auto", ["pg1"]⟩,
                   ⟨"poe2", "Horn", "auto", ["pg1"]⟩]
    poeAutoDisabled := ["poe2"]
    selectedDevices := ["pg1"]
    devices := [⟨"pg1", "8301"⟩]
    poeIsOn := true
    countdown := none
    poeKeepAliveDuration := 60000 }

theorem C6_enable_cancels_countdown_and_coalesces_witness :
    ((controlPoEDevices sampleMon true false).1).countdown = none
    ∧ controlPoEDevices sampleMon true false =
        ({ sampleMon with countdown := none }, [.timerResetLog])
    ∧ hasOffToggle ((controlPoEDevices sampleMon false false).2 ++
        (poeTicks 3 (controlPoEDevices sampleMon false false).1).2 ++
        (controlPoEDevices (poeTicks 3 (controlPoEDevices sampleMon false false).1).1
          true false).2) = false := by
  refine ⟨?_, ?_, ?_⟩
  · exact C6_enable_cancels_countdown_and_coalesces.1 sampleMon rfl (by decide)
  · exact C6_enable_cancels_countdown_and_coalesces.2.1 sampleMon rfl (by decide) rfl
  · exact C6_enable_cancels_countdown_and_coalesces.2.2 sampleMon 3 rfl (by decide)

theorem C7_force_off_ignores_exclusions_witness :
    ((controlPoEDevices sampleMon false true).1).countdown = none
    ∧ ((controlPoEDevices sampleMon false true).1).poeIsOn = false
    ∧ (controlPoEDevices sampleMon false true).2 =
        [.forceOffLog ["poe1", "poe2"],
         .netToggleBulk [("poe1", false), ("poe2", false)]]
    ∧ (controlPoEDevices { sampleMon with poeAutoDisabled := ["poe1", "poe2"] }
        false true).2 = (controlPoEDevices sampleMon false true).2 := by
  obtain ⟨h1, h2, h3, h4⟩ := C7_force_off_ignores_exclusions sampleMon rfl
  refine ⟨h1, h2, ?_, h4 ["poe1", "poe2"]⟩
  rw [h3]
  rfl

/-! ## Port-status parsing (controller.ts lines 512-554)

The `matchAll` regex over the config page is embedded as an explicit
scanner with the same semantics on the pattern's fixed fragments: find
the next `poe_port_list_item` tag, then (lazily, i.e. at the nearest
following occurrence) the hidden `class="port"` value, its digits, the
`hidPortPwr` input and its `value="..."` digits; anything that does not
complete the pattern yields no further matches, and non-matching
fragments in between are skipped.  The final `sort((a, b) => a.port -
b.port)` is a stable ascending sort, embedded as insertion sort (JS
`Array.prototype.sort` is required to be stable). -/

/-- Remainder of `s` just after the first occurrence of `pat`, if any. -/
def dropAfter (pat : List Char) : List Char → Option (List Char)
  | [] => if pat.isPrefixOf ([] : List Char) then some [] else none
  | c :: t =>
    if pat.isPrefixOf (c :: t) then some ((c :: t).drop pat.length)
    else dropAfter pat t

def takeDigits (s : List Char) : List Char × List Char :=
  s.span fun c => c.isDigit

/-- `parseInt` on a digit string. -/
def digitsVal (ds : List Char) : Nat :=
  ds.foldl (fun acc c => acc * 10 + (c.toNat - 48)) 0

def liTag : List Char := "<li class=\"poe_port_list_item".data

def portTag : List Char := "<input type=\"hidden\" class=\"port\" value=\"".data

def pwrTag : List Char := "<input type=\"hidden\" class=\"hidPortPwr\"".data

def valTag : List Char := "value=\"".data

/-- The `matchAll` loop (lines 537-547): one `(port, pwr)` pair per
completed pattern occurrence, scanning left to right. -/
def parsePortsAux : Nat → List Char → List (Nat × Bool)
  | 0, _ => []
  | fuel + 1, s =>
    match dropAfter liTag s with
    | none => []
    | some s1 =>
      match dropAfter portTag s1 with
      | none => []
      | some s2 =>
        let (d1, s3) := takeDigits s2
        if d1.isEmpty then []
        else
          match dropAfter pwrTag s3 with
          | none => []
          | some s4 =>
            match dropAfter valTag s4 with
            | none => []
            | some s5 =>
              let (d2, s6) := takeDigits s5
              if d2.isEmpty then []
              else (digitsVal d1, d2 == ['1']) :: parsePortsAux fuel s6

structure PortStatus where
  port : Nat
  enabled : Bool
deriving DecidableEq

/-- The parse-and-sort body of `getPortStatuses` (lines 532-552). -/
def parsePortStatuses (body : String) : List PortStatus :=
  let raw := parsePortsAux body.data.length body.data
  let statuses := raw.map fun pr => ({ port := pr.1, enabled := pr.2 } : PortStatus)
  statuses.insertionSort fun a b => a.port ≤ b.port

/-- `getPortStatuses` (lines 512-554), given the login outcome and the
config-page response `(statusCode, body)`: non-200 is the only error;
the parse itself is total. -/
def getPortStatusesRun (sid : Except String String) (page : Nat × String) :
    Except String (List PortStatus) :=
  match sid with
  | .error e => .error e
  | .ok _ =>
    if page.1 ≠ 200 then
      .error ("Failed to get PoE config page: " ++ toString page.1)
    else .ok (parsePortStatuses page.2)

/-- A config page with one enabled port 5 entry, an unrelated list item
and stray text (skipped), and an enabled port 2 entry listed after
port 5. -/
def sampleConfigPage : String :=
  "<html><li class=\"poe_port_list_item x\"><input type=\"hidden\" class=\"port\" value=\"5\"><input type=\"hidden\" class=\"hidPortPwr\" id=\"p\" value=\"0\"></li>" ++
  "<li class=\"other_list_item\"><span>junk</span></li>" ++
  "<li class=\"poe_port_list_item\"><input type=\"hidden\" class=\"port\" value=\"2\"><input type=\"hidden\" class=\"hidPortPwr\" value=\"1\"></li></html>"

set_option maxRecDepth 1000000 in
/-- Claim C9: `getPortStatuses` returns its `(port, enabled)` entries
sorted ascending by port number; parsing is total, so with a 200
response it always returns `ok` of the parsed page, and HTML fragments
not matching the port pattern are skipped silently rather than causing
an error (concrete page: the non-matching list item disappears and the
two matching entries come back sorted). -/
theorem C9_port_statuses_sorted_unmatched_skipped :
    (∀ body : String,
      (parsePortStatuses body).Sorted fun a b => a.port ≤ b.port)
    ∧ (∀ (sid : String) (body : String),
        getPortStatusesRun (.ok sid) (200, body) = .ok (parsePortStatuses body))
    ∧ parsePortStatuses sampleConfigPage =
        [{ port := 2, enabled := true }, { port := 5, enabled := false }] := by
  refine ⟨?_, ?_, by decide⟩
  · intro body
    haveI ht : IsTotal PortStatus (fun a b => a.port ≤ b.port) :=
      ⟨fun a b => Nat.le_total a.port b.port⟩
    haveI htr : IsTrans PortStatus (fun a b => a.port ≤ b.port) :=
      ⟨fun a b c h1 h2 => Nat.le_trans h1 h2⟩
    exact List.sorted_insertionSort _ _
  · intro sid body
    rfl

/-! ## Single-flight login (controller.ts lines 196-215) as a labelled
transition system

`login()` runs on Node's cooperative event loop: code between `await`
points executes atomically.  Each concurrent caller is a process whose
atomic first block either returns the cached token, joins the in-flight
promise, or starts `performLogin` (setting `loginInProgress`); the
promise resolves once; the starter's continuation caches the token and
clears `loginInProgress` (the `finally`); joiners resume with the same
resolved value.  `count` counts `performLogin` invocations, i.e.
underlying login HTTP exchanges. -/

inductive CallerPC where
  | notStarted
  | awaitStarter
  | awaitJoiner
  | done (t : String)
deriving DecidableEq

structure LoginSys (n : Nat) where
  cached : Option String
  inflight : Bool
  resolved : Option String
  count : Nat
  pcs : Fin n → CallerPC

def loginInit (n : Nat) : LoginSys n :=
  { cached := none, inflight := false, resolved := none, count := 0,
    pcs := fun _ => .notStarted }

/-- One atomic scheduler step of the cooperative login system. -/
inductive LoginStep {n : Nat} : LoginSys n → LoginSys n → Prop
  | startCached (i : Fin n) (t : String) (s : LoginSys n)
      (hpc : s.pcs i = .notStarted) (hc : s.cached = some t) :
      LoginStep s { s with pcs := Function.update s.pcs i (.done t) }
  | startJoin (i : Fin n) (s : LoginSys n)
      (hpc : s.pcs i = .notStarted) (hc : s.cached = none)
      (hf : s.inflight = true) :
      LoginStep s { s with pcs := Function.update s.pcs i .awaitJoiner }
  | startFlight (i : Fin n) (s : LoginSys n)
      (hpc : s.pcs i = .notStarted) (hc : s.cached = none)
      (hf : s.inflight = false) :
      LoginStep s
        { s with
          inflight := true
          count := s.count + 1
          pcs := Function.update s.pcs i .awaitStarter }
  | resolve (t : String) (s : LoginSys n) (i : Fin n)
      (hpc : s.pcs i = .awaitStarter) (hr : s.resolved = none) :
      LoginStep s { s with resolved := some t }
  | wakeStarter (i : Fin n) (t : String) (s : LoginSys n)
      (hpc : s.pcs i = .awaitStarter) (hr : s.resolved = some t) :
      LoginStep s
        { s with
          cached := some t
          inflight := false
          pcs := Function.update s.pcs i (.done t) }
  | wakeJoiner (i : Fin n) (t : String) (s : LoginSys n)
      (hpc : s.pcs i = .awaitJoiner) (hr : s.resolved = some t) :
      LoginStep s { s with pcs := Function.update s.pcs i (.done t) }

def LoginReachable (n : Nat) (s : LoginSys n) : Prop :=
  Relation.ReflTransGen LoginStep (loginInit n) s

/-- The inductive invariant of the single-flight login system. -/
structure LoginInv {n : Nat} (s : LoginSys n) : Prop where
  countLe : s.count ≤ 1
  startZero : s.count = 0 →
    s.cached = none ∧ s.inflight = false ∧ s.resolved = none ∧
      ∀ i, s.pcs i = .notStarted
  inflightStarter : s.inflight = true → ∃ i, s.pcs i = .awaitStarter
  starterUnique : ∀ i j, s.pcs i = .awaitStarter → s.pcs j = .awaitStarter → i = j
  starterInflight : ∀ i, s.pcs i = .awaitStarter → s.inflight = true
  doneResolved : ∀ i t, s.pcs i = .done t → s.resolved = some t
  cachedResolved : ∀ t, s.cached = some t → s.resolved = some t
  resolvedQuiet : ∀ t, s.resolved = some t → s.inflight = false →
    s.cached = some t
  flightOrCached : 1 ≤ s.count → s.inflight = true ∨ s.cached ≠ none
  resolvedCount : s.resolved ≠ none → s.count = 1

theorem loginInv_init (n : Nat) : LoginInv (loginInit n) := by
  refine ⟨?_, ?_, ?_, ?_, ?_, ?_, ?_, ?_, ?_, ?_⟩ <;>
    simp [loginInit]

theorem update_pc_elim {n : Nat} {f : Fin n → CallerPC} {i a : Fin n}
    {v w : CallerPC} (ha : Function.update f i v a = w) :
    (a = i ∧ v = w) ∨ (a ≠ i ∧ f a = w) := by
  rw [Function.update_apply] at ha
  by_cases hai : a = i
  · rw [if_pos hai] at ha
    exact Or.inl ⟨hai, ha⟩
  · rw [if_neg hai] at ha
    exact Or.inr ⟨hai, ha⟩

theorem update_pc_ne {n : Nat} {f : Fin n → CallerPC} {i a : Fin n}
    {v : CallerPC} (hai : a ≠ i) : Function.update f i v a = f a := by
  rw [Function.update_apply, if_neg hai]

theorem loginInv_step {n : Nat} {s s' : LoginSys n} (hinv : LoginInv s)
    (hs : LoginStep s s') : LoginInv s' := by
  cases hs with
  | startCached i t _ hpc hc =>
    refine ⟨hinv.countLe, ?_, ?_, ?_, ?_, ?_, hinv.cachedResolved,
      hinv.resolvedQuiet, hinv.flightOrCached, hinv.resolvedCount⟩
    · intro h0
      rcases hinv.startZero h0 with ⟨hcn, _, _, _⟩
      rw [hcn] at hc
      cases hc
    · intro hf
      obtain ⟨j, hj⟩ := hinv.inflightStarter hf
      have hji : j ≠ i := by
        intro he
        rw [he, hpc] at hj
        simp at hj
      exact ⟨j, (update_pc_ne hji).trans hj⟩
    · intro a b ha hb
      rcases update_pc_elim ha with ⟨_, hv⟩ | ⟨_, ha2⟩
      · simp at hv
      · rcases update_pc_elim hb with ⟨_, hv⟩ | ⟨_, hb2⟩
        · simp at hv
        · exact hinv.starterUnique a b ha2 hb2
    · intro a ha
      rcases update_pc_elim ha with ⟨_, hv⟩ | ⟨_, ha2⟩
      · simp at hv
      · exact hinv.starterInflight a ha2
    · intro a u ha
      rcases update_pc_elim ha with ⟨_, hv⟩ | ⟨_, ha2⟩
      · injection hv with htu
        rw [← htu]
        exact hinv.cachedResolved t hc
      · exact hinv.doneResolved a u ha2
  | startJoin i _ hpc hc hf =>
    refine ⟨hinv.countLe, ?_, ?_, ?_, ?_, ?_, hinv.cachedResolved,
      hinv.resolvedQuiet, hinv.flightOrCached, hinv.resolvedCount⟩
    · intro h0
      rcases hinv.startZero h0 with ⟨_, hfn, _, _⟩
      rw [hfn] at hf
      cases hf
    · intro hf2
      obtain ⟨j, hj⟩ := hinv.inflightStarter hf2
      have hji : j ≠ i := by
        intro he
        rw [he, hpc] at hj
        simp at hj
      exact ⟨j, (update_pc_ne hji).trans hj⟩
    · intro a b ha hb
      rcases update_pc_elim ha with ⟨_, hv⟩ | ⟨_, ha2⟩
      · simp at hv
      · rcases update_pc_elim hb with ⟨_, hv⟩ | ⟨_, hb2⟩
        · simp at hv
        · exact hinv.starterUnique a b ha2 hb2
    · intro a ha
      rcases update_pc_elim ha with ⟨_, hv⟩ | ⟨_, ha2⟩
      · simp at hv
      · exact hinv.starterInflight a ha2
    · intro a u ha
      rcases update_pc_elim ha with ⟨_, hv⟩ | ⟨_, ha2⟩
      · simp at hv
      · exact hinv.doneResolved a u ha2
  | startFlight i _ hpc hc hf =>
    have hzero : s.count = 0 := by
      rcases Nat.eq_zero_or_pos s.count with h | h
      · exact h
      · rcases hinv.flightOrCached h with h2 | h2
        · rw [hf] at h2
          cases h2
        · exact absurd hc h2
    refine ⟨?_, ?_, ?_, ?_, ?_, ?_, ?_, ?_, ?_, ?_⟩
    · show s.count + 1 ≤ 1
      omega
    · intro h0
      have h0' : s.count + 1 = 0 := h0
      exact absurd h0' (by omega)
    · intro _
      exact ⟨i, Function.update_same i _ _⟩
    · intro a b ha hb
      rcases update_pc_elim ha with ⟨hai, _⟩ | ⟨_, ha2⟩
      · rcases update_pc_elim hb with ⟨hbi, _⟩ | ⟨_, hb2⟩
        · rw [hai, hbi]
        · have := hinv.starterInflight b hb2
          rw [hf] at this
          cases this
      · have := hinv.starterInflight a ha2
        rw [hf] at this
        cases this
    · intro a _
      rfl
    · intro a u ha
      rcases update_pc_elim ha with ⟨_, hv⟩ | ⟨_, ha2⟩
      · simp at hv
      · exact hinv.doneResolved a u ha2
    · intro u hu
      rw [hc] at hu
      cases hu
    · intro u hu hf2
      cases hf2
    · intro _
      exact Or.inl rfl
    · intro hrne
      have h1 := hinv.resolvedCount hrne
      show s.count + 1 = 1
      omega
  | resolve t _ i hpc hr =>
    have hcount : s.count = 1 := by
      have hne : s.count ≠ 0 := by
        intro h0
        rcases hinv.startZero h0 with ⟨_, _, _, hall⟩
        rw [hall i] at hpc
        cases hpc
      have := hinv.countLe
      omega
    refine ⟨hinv.countLe, ?_, hinv.inflightStarter, hinv.starterUnique,
      hinv.starterInflight, ?_, ?_, ?_, hinv.flightOrCached, ?_⟩
    · intro h0
      have h0' : s.count = 0 := h0
      exact absurd h0' (by omega)
    · intro a u ha
      have := hinv.doneResolved a u ha
      rw [hr] at this
      cases this
    · intro u hu
      have := hinv.cachedResolved u hu
      rw [hr] at this
      cases this
    · intro u hu hf2
      have := hinv.starterInflight i hpc
      rw [hf2] at this
      cases this
    · intro _
      exact hcount
  | wakeStarter i t _ hpc hr =>
    refine ⟨hinv.countLe, ?_, ?_, ?_, ?_, ?_, ?_, ?_, ?_, hinv.resolvedCount⟩
    · intro h0
      rcases hinv.startZero h0 with ⟨_, _, _, hall⟩
      rw [hall i] at hpc
      cases hpc
    · intro hf2
      cases hf2
    · intro a b ha hb
      rcases update_pc_elim ha with ⟨_, hv⟩ | ⟨hai, ha2⟩
      · simp at hv
      · have := hinv.starterUnique a i ha2 hpc
        exact absurd this hai
    · intro a ha
      rcases update_pc_elim ha with ⟨_, hv⟩ | ⟨hai, ha2⟩
      · simp at hv
      · have := hinv.starterUnique a i ha2 hpc
        exact absurd this hai
    · intro a u ha
      rcases update_pc_elim ha with ⟨_, hv⟩ | ⟨_, ha2⟩
      · injection hv with htu
        rw [← htu]
        exact hr
      · exact hinv.doneResolved a u ha2
    · intro u hu
      injection hu with htu
      rw [← htu]
      exact hr
    · intro u hu _
      rw [hr] at hu
      injection hu with htu
      rw [htu]
    · intro _
      exact Or.inr (by simp)
  | wakeJoiner i t _ hpc hr =>
    refine ⟨hinv.countLe, ?_, ?_, ?_, ?_, ?_, hinv.cachedResolved,
      hinv.resolvedQuiet, hinv.flightOrCached, hinv.resolvedCount⟩
    · intro h0
      rcases hinv.startZero h0 with ⟨_, _, _, hall⟩
      rw [hall i] at hpc
      cases hpc
    · intro hf2
      obtain ⟨j, hj⟩ := hinv.inflightStarter hf2
      have hji : j ≠ i := by
        intro he
        rw [he, hpc] at hj
        simp at hj
      exact ⟨j, (update_pc_ne hji).trans hj⟩
    · intro a b ha hb
      rcases update_pc_elim ha with ⟨_, hv⟩ | ⟨_, ha2⟩
      · simp at hv
      · rcases update_pc_elim hb with ⟨_, hv⟩ | ⟨_, hb2⟩
        · simp at hv
        · exact hinv.starterUnique a b ha2 hb2
    · intro a ha
      rcases update_pc_elim ha with ⟨_, hv⟩ | ⟨_, ha2⟩
      · simp at hv
      · exact hinv.starterInflight a ha2
    · intro a u ha
      rcases update_pc_elim ha with ⟨_, hv⟩ | ⟨_, ha2⟩
      · injection hv with htu
        rw [← htu]
        exact hr
      · exact hinv.doneResolved a u ha2

theorem loginInv_reachable {n : Nat} {s : LoginSys n}
    (h : LoginReachable n s) : LoginInv s := by
  induction h with
  | refl => exact loginInv_init n
  | tail _ hstep ih => exact loginInv_step ih hstep

/-- Claim C2: in any cooperative interleaving of N concurrent `login()`
callers starting from an empty session cache, once every caller has
returned, exactly one underlying login exchange (`performLogin`) was
performed, all callers returned the same token, and that token is
cached. -/
theorem C2_login_single_flight (n : Nat) (hn : 0 < n) (s : LoginSys n)
    (hreach : LoginReachable n s)
    (hdone : ∀ i : Fin n, ∃ t, s.pcs i = .done t) :
    s.count = 1 ∧ ∃ t, s.cached = some t ∧ ∀ i : Fin n, s.pcs i = .done t := by
  have hinv := loginInv_reachable hreach
  obtain ⟨t0, ht0⟩ := hdone ⟨0, hn⟩
  have hres : s.resolved = some t0 := hinv.doneResolved _ _ ht0
  have hcount : s.count = 1 := hinv.resolvedCount (by rw [hres]; simp)
  have hnostarter : ∀ i, s.pcs i ≠ .awaitStarter := by
    intro i hi
    obtain ⟨u, hu⟩ := hdone i
    rw [hu] at hi
    cases hi
  have hinf : s.inflight = false := by
    cases hf : s.inflight
    · rfl
    · obtain ⟨j, hj⟩ := hinv.inflightStarter hf
      exact absurd hj (hnostarter j)
  have hcached : s.cached = some t0 := hinv.resolvedQuiet t0 hres hinf
  refine ⟨hcount, t0, hcached, ?_⟩
  intro i
  obtain ⟨u, hu⟩ := hdone i
  have h2 := (hinv.doneResolved i u hu).symm.trans hres
  injection h2 with h3
  rw [hu, h3]

/-- A concrete five-step schedule for two concurrent callers: caller 0
starts the flight, caller 1 joins it, the login resolves with token
`T`, caller 0 caches it, caller 1 wakes with the same token. -/
def w0 : LoginSys 2 := loginInit 2

def w1 : LoginSys 2 :=
  { w0 with
    inflight := true
    count := w0.count + 1
    pcs := Function.update w0.pcs 0 .awaitStarter }

def w2 : LoginSys 2 := { w1 with pcs := Function.update w1.pcs 1 .awaitJoiner }

def w3 : LoginSys 2 := { w2 with resolved := some "T" }

def w4 : LoginSys 2 :=
  { w3 with
    cached := some "T"
    inflight := false
    pcs := Function.update w3.pcs 0 (.done "T") }

def w5 : LoginSys 2 := { w4 with pcs := Function.update w4.pcs 1 (.done "T") }

theorem w5_reachable : LoginReachable 2 w5 := by
  have h1 : LoginStep w0 w1 := LoginStep.startFlight 0 w0 rfl rfl rfl
  have h2 : LoginStep w1 w2 := LoginStep.startJoin 1 w1 (by decide) rfl rfl
  have h3 : LoginStep w2 w3 := LoginStep.resolve "T" w2 0 (by decide) rfl
  have h4 : LoginStep w3 w4 := LoginStep.wakeStarter 0 "T" w3 (by decide) rfl
  have h5 : LoginStep w4 w5 := LoginStep.wakeJoiner 1 "T" w4 (by decide) rfl
  exact ((((Relation.ReflTransGen.single h1).tail h2).tail h3).tail h4).tail h5

theorem C2_login_single_flight_witness :
    0 < 2 ∧ (∀ i : Fin 2, ∃ t, w5.pcs i = .done t) ∧
      (w5.count = 1 ∧ ∃ t, w5.cached = some t ∧
        ∀ i : Fin 2, w5.pcs i = .done t) := by
  have hdone : ∀ i : Fin 2, ∃ t, w5.pcs i = .done t := by
    intro i
    fin_cases i
    · exact ⟨"T", by decide⟩
    · exact ⟨"T", by decide⟩
  exact ⟨by decide, hdone,
    C2_login_single_flight 2 (by decide) w5 w5_reachable hdone⟩

end PoECtl
